import Mathlib

/-!
Verification of the agent task-dispatcher repository.

Shallow embedding of the core of `agent/dispatcher.py`, `agent/web_manager.py`
and `agent/daily_digest.py`.  Tasks are records mirroring the JSON task
objects stored in `tasks.json`; optional JSON fields (ones read with
`dict.get`) are `Option`-typed, fields read with `t["..."]` are required.
File-system effects are made explicit: the loaded task list is passed as an
argument and the saved task list is returned.  Ambient values (`date.today()`,
`DAILY_LIMIT`, form fields after their defaults) are passed as parameters.
-/

namespace Agent

/-- A task object from `tasks.json`.  `id`, `status` and `prompt` are accessed
with `t["..."]` in the sources (required); the rest are accessed with
`t.get(...)` (optional, absent modelled as `none`). -/
structure Task where
  id : Nat
  status : String
  prompt : String
  priority : Option String := none
  parent : Option Nat := none
  plan : Option String := none
  summary : Option String := none
  created_at : Option String := none
  completed_at : Option String := none
deriving Repr, DecidableEq

/-- Python `x or y` on an optional string `x` and default `y`:
`None` and the empty string are falsy, so both fall through to `y`. -/
def pyOrStr (x : Option String) (y : String) : String :=
  match x with
  | none => y
  | some s => if s = "" then y else s

/-- `charsHavePre p s` is true when the char list `p` is a prefix of `s`. -/
def charsHavePre : List Char → List Char → Bool
  | [], _ => true
  | _ :: _, [] => false
  | a :: as, b :: bs => a == b && charsHavePre as bs

/-- Python `s.startswith(p)`. -/
def strStartsWith (s p : String) : Bool :=
  charsHavePre p.data s.data

/-- Python `str.strip()` (over the ASCII whitespace the repo's form inputs
use): drop leading and trailing whitespace characters. -/
def pyStrip (s : String) : String :=
  ⟨((s.data.dropWhile Char.isWhitespace).reverse.dropWhile Char.isWhitespace).reverse⟩

/-- The Python idiom
`for t in tasks: if p(t): mutate t; break` — update the first element
satisfying `p`, leave everything else untouched.  Used by
`dispatcher.update_task` and by every status-changing route in
`web_manager.py`. -/
def updateFirst (p : Task → Bool) (f : Task → Task) : List Task → List Task
  | [] => []
  | t :: ts => if p t then f t :: ts else t :: updateFirst p f ts

/-! ## dispatcher.py -/

/-- `PRIORITY_ORDER = {"high": 0, "medium": 1, "low": 2}` (dispatcher.py:21),
as a partial lookup (`dict.get` without default returns `None`). -/
def PRIORITY_ORDER (p : String) : Option Nat :=
  if p = "high" then some 0
  else if p = "medium" then some 1
  else if p = "low" then some 2
  else none

/-- `PRIORITY_ORDER.get(t.get("priority", "medium"), 1)` — the first component
of the sort key in `pick_next_task` (dispatcher.py:51). -/
def priorityRank (t : Task) : Nat :=
  (PRIORITY_ORDER (t.priority.getD "medium")).getD 1

/-- The sort key `(PRIORITY_ORDER.get(...), t["id"])` of dispatcher.py:51. -/
def taskKey (t : Task) : Nat × Nat :=
  (priorityRank t, t.id)

/-- Strict lexicographic comparison of sort keys (Python tuple `<`). -/
def keyLt (a b : Nat × Nat) : Bool :=
  a.1 < b.1 || (a.1 == b.1 && a.2 < b.2)

/-- Non-strict lexicographic order on sort keys (Python tuple `<=`). -/
def keyLe (a b : Nat × Nat) : Prop :=
  a.1 < b.1 ∨ (a.1 = b.1 ∧ a.2 ≤ b.2)

/-- First element of `t :: rest` attaining the minimal `taskKey`.  Python's
`sorted` is stable, so `sorted(pending, key=...)[0]` is exactly this element. -/
def pickMin (t : Task) (rest : List Task) : Task :=
  rest.foldl (fun best u => if keyLt (taskKey u) (taskKey best) then u else best) t

/-- `dispatcher.pick_next_task` (dispatcher.py:47-51): filter to pending,
return `None` when empty, otherwise the head of the stable sort by
`(priority-rank, id)`. -/
def pick_next_task (tasks : List Task) : Option Task :=
  match tasks.filter (fun t => t.status == "pending") with
  | [] => none
  | t :: rest => some (pickMin t rest)

/-- `dispatcher.tasks_completed_today` (dispatcher.py:54-59); `today` stands
for `date.today().isoformat()`. -/
def tasks_completed_today (tasks : List Task) (today : String) : Nat :=
  tasks.countP (fun t => t.status == "done" && strStartsWith (pyOrStr t.completed_at "") today)

/-- The branch taken by one iteration of `dispatcher.main`'s loop head
(dispatcher.py:158-174): long backoff on the daily cap, short idle sleep when
no task is pending, otherwise dispatch the picked task. -/
inductive LoopAction where
  | backoff
  | idle
  | dispatch (t : Task)
deriving Repr, DecidableEq

/-- The decision made at the top of `dispatcher.main`'s while-loop
(dispatcher.py:159-171): `completed_today >= DAILY_LIMIT` takes the one-hour
backoff; otherwise `pick_next_task` decides between idling and dispatching. -/
def loop_step (tasks : List Task) (today : String) (limit : Nat) : LoopAction :=
  if limit ≤ tasks_completed_today tasks today then .backoff
  else
    match pick_next_task tasks with
    | none => .idle
    | some t => .dispatch t

/-- `dispatcher.update_task` (dispatcher.py:38-44): merge fields (`f`) into
the first task whose id matches, then save; a silent no-op when none match. -/
def update_task (tasks : List Task) (tid : Nat) (f : Task → Task) : List Task :=
  updateFirst (fun t => t.id == tid) f tasks

/-- The field merge of `update_task(task_id, status="failed",
summary="Plan approval timed out")` (dispatcher.py:117). -/
def timeoutFailUpdate (t : Task) : Task :=
  { t with status := "failed", summary := some "Plan approval timed out" }

/-- The field merge of `update_task(task_id, status="failed",
summary="Plan rejected or timed out")` (dispatcher.py:188). -/
def rejectedFailUpdate (t : Task) : Task :=
  { t with status := "failed", summary := some "Plan rejected or timed out" }

/-- `dispatcher.wait_for_approval` (dispatcher.py:95-118) in the scenario
where the store does not change while the gate polls (the task's status never
changes): each poll re-loads the same `store`; `fuel` is the number of polls
that happen before the deadline elapses.  Returns the Python return value and
the store after the gate's own writes. -/
def wait_for_approval (store : List Task) (tid : Nat) : Nat → Bool × List Task
  | 0 => (false, update_task store tid timeoutFailUpdate)
  | fuel + 1 =>
    match store.find? (fun t => t.id == tid) with
    | none => (false, store)
    | some t =>
      if t.status = "approved" then (true, store)
      else if t.status = "rejected" then (false, store)
      else wait_for_approval store tid fuel

/-- `dispatcher.main` steps 186-189, entered right after the plan phase stored
`status="plan_review"` (dispatcher.py:184): block on `wait_for_approval`; when
it returns `False`, overwrite with `status="failed",
summary="Plan rejected or timed out"` and end the task's cycle (`continue`).
When it returns `True` the loop proceeds to the execute phase (not part of
this scenario); the boolean reports which branch was taken. -/
def dispatch_after_plan_review (store : List Task) (tid : Nat) (fuel : Nat) :
    List Task × Bool :=
  let r := wait_for_approval store tid fuel
  if r.1 then (r.2, true)
  else (update_task r.2 tid rejectedFailUpdate, false)

/-- `dispatcher.detect_decomposition` (dispatcher.py:145-148); the loaded
store is passed explicitly. -/
def detect_decomposition (tasks : List Task) (tid : Nat) : Bool :=
  tasks.any (fun t => t.parent == some tid && t.status == "pending")

/-! ## Task Store loading (dispatcher.py:28-31 and web_manager.py:40-43,
identical in both files) -/

/-- The state of the store document on disk, as far as `load_tasks` can
distinguish it: missing file, present but not parseable by `json.loads`,
or a well-formed `{"tasks": [...]}` document. -/
inductive StoreDoc where
  | absent
  | malformed
  | wellFormed (tasks : List Task)
deriving Repr, DecidableEq

/-- `load_tasks`: `if not TASKS_FILE.exists(): return {"tasks": []}` then
`return json.loads(TASKS_FILE.read_text())` — a missing file yields the empty
list, but malformed content makes `json.loads` raise `json.JSONDecodeError`,
modelled as `.error`. -/
def load_tasks : StoreDoc → Except String (List Task)
  | .absent => .ok []
  | .malformed => .error "JSONDecodeError"
  | .wellFormed ts => .ok ts

/-! ## web_manager.py -/

/-- `web_manager.next_id` (web_manager.py:50-51):
`max((t["id"] for t in tasks), default=0) + 1`. -/
def next_id (tasks : List Task) : Nat :=
  tasks.foldl (fun m t => max m t.id) 0 + 1

/-- `web_manager.add_task` (web_manager.py:430-451).  `promptRaw` is the
posted form field before `.strip()`; `priority` the posted priority (after
the form default `"medium"`); `now` stands for
`datetime.utcnow().isoformat()`. -/
def add_task (tasks : List Task) (promptRaw priority now : String) : List Task :=
  if pyStrip promptRaw = "" then tasks
  else
    tasks ++ [{ id := next_id tasks, status := "pending", prompt := pyStrip promptRaw,
                priority := some priority, parent := none, plan := none,
                created_at := some now, completed_at := none, summary := none }]

/-- `web_manager.edit_task` (web_manager.py:464-476): on the first task with
matching id and status in `("pending", "failed", "rejected")`, overwrite the
prompt only when the stripped submission is non-empty, and always overwrite
the priority. -/
def edit_task (tasks : List Task) (tid : Nat) (promptRaw priority : String) :
    List Task :=
  updateFirst
    (fun t => t.id == tid &&
      (t.status == "pending" || t.status == "failed" || t.status == "rejected"))
    (fun t =>
      { (if pyStrip promptRaw = "" then t else { t with prompt := pyStrip promptRaw }) with
        priority := some priority })
    tasks

/-- `web_manager.approve_task` (web_manager.py:487-495). -/
def approve_task (tasks : List Task) (tid : Nat) : List Task :=
  updateFirst (fun t => t.id == tid && t.status == "plan_review")
    (fun t => { t with status := "approved" }) tasks

/-- `web_manager.reject_task` (web_manager.py:498-509); `feedback` is the
posted form field (default `""`), folded into the summary only when
non-empty (Python truthiness). -/
def reject_task (tasks : List Task) (tid : Nat) (feedback : String) : List Task :=
  updateFirst (fun t => t.id == tid && t.status == "plan_review")
    (fun t =>
      if feedback = "" then { t with status := "rejected" }
      else { t with status := "rejected", summary := some ("Rejected: " ++ feedback) })
    tasks

/-- `web_manager.cancel_task` (web_manager.py:512-521). -/
def cancel_task (tasks : List Task) (tid : Nat) : List Task :=
  updateFirst
    (fun t => t.id == tid &&
      (t.status == "in_progress" || t.status == "plan_review" || t.status == "approved"))
    (fun t => { t with
        status := "failed",
        summary := some (pyOrStr t.summary "" ++ "\nCancelled by user via Web UI.") })
    tasks

/-- `web_manager.retry_task` (web_manager.py:524-535). -/
def retry_task (tasks : List Task) (tid : Nat) : List Task :=
  updateFirst
    (fun t => t.id == tid &&
      (t.status == "failed" || t.status == "rejected" || t.status == "done"))
    (fun t => { t with
        status := "pending", completed_at := none,
        summary := none, plan := none })
    tasks

/-- The field reset performed by `retry_task` on an eligible task. -/
def retryClear (t : Task) : Task :=
  { t with status := "pending", completed_at := none, summary := none, plan := none }

/-- `web_manager.approve_push` (web_manager.py:538-546). -/
def approve_push (tasks : List Task) (tid : Nat) : List Task :=
  updateFirst (fun t => t.id == tid && t.status == "push_review")
    (fun t => { t with status := "pushed" }) tasks

/-- `web_manager.reject_push` (web_manager.py:549-558). -/
def reject_push (tasks : List Task) (tid : Nat) : List Task :=
  updateFirst (fun t => t.id == tid && t.status == "push_review")
    (fun t => { t with
        status := "done",
        summary := some (pyOrStr t.summary "" ++ "\nPush skipped by user (local commit only).") })
    tasks

/-- The six status-changing Control Surface operations of web_manager.py. -/
inductive ControlOp where
  | approve
  | reject (feedback : String)
  | cancel
  | retry
  | approvePush
  | rejectPush
deriving Repr, DecidableEq

/-- The source states each operation requires (the status tuple in its
`if t["id"] == task_id and t["status"] ...` guard). -/
def requiredStates : ControlOp → List String
  | .approve => ["plan_review"]
  | .reject _ => ["plan_review"]
  | .cancel => ["in_progress", "plan_review", "approved"]
  | .retry => ["failed", "rejected", "done"]
  | .approvePush => ["push_review"]
  | .rejectPush => ["push_review"]

/-- Dispatch a Control Surface operation to its route handler. -/
def applyOp (op : ControlOp) (tasks : List Task) (tid : Nat) : List Task :=
  match op with
  | .approve => approve_task tasks tid
  | .reject fb => reject_task tasks tid fb
  | .cancel => cancel_task tasks tid
  | .retry => retry_task tasks tid
  | .approvePush => approve_push tasks tid
  | .rejectPush => reject_push tasks tid

/-! ## daily_digest.py -/

/-- The `done` partition of `daily_digest.build_body` (daily_digest.py:38). -/
def digestDone (tasks : List Task) (today : String) : List Task :=
  tasks.filter (fun t => t.status == "done" && strStartsWith (pyOrStr t.completed_at "") today)

/-- The `pending` partition of `daily_digest.build_body` (daily_digest.py:39). -/
def digestPending (tasks : List Task) : List Task :=
  tasks.filter (fun t => t.status == "pending")

/-- The `failed` partition of `daily_digest.build_body` (daily_digest.py:40):
`(t.get("completed_at") or (t.get("created_at") or "")).startswith(today)`. -/
def digestFailed (tasks : List Task) (today : String) : List Task :=
  tasks.filter (fun t => t.status == "failed" &&
    strStartsWith (pyOrStr t.completed_at (pyOrStr t.created_at "")) today)

/-! ## Concrete stores used to instantiate the theorems -/

def c1TaskA : Task := { id := 1, status := "pending", prompt := "a" }

def c1Tasks : List Task :=
  [{ id := 2, status := "pending", prompt := "b", priority := some "low" },
   c1TaskA,
   { id := 3, status := "done", prompt := "c", priority := some "high" }]

def c2Task : Task :=
  { id := 1, status := "plan_review", prompt := "x", plan := some "the plan" }

def c2Store : List Task := [c2Task]

def c4Tasks : List Task :=
  [{ id := 1, status := "done", prompt := "a", completed_at := some "2026-02-27T10:00:00" },
   { id := 2, status := "done", prompt := "b", completed_at := some "2020-01-01T10:00:00" },
   { id := 3, status := "pending", prompt := "c" }]

def c6Task : Task :=
  { id := 1, status := "failed", prompt := "a", plan := some "p",
    summary := some "boom", completed_at := some "2026-02-27T10:00:00" }

def c6Tasks : List Task := [c6Task]

def c7Tasks : List Task := [{ id := 1, status := "pending", prompt := "a" }]

def c8Task : Task :=
  { id := 1, status := "failed", prompt := "a", created_at := some "2026-02-27T08:00:00" }

def c8Tasks : List Task := [c8Task]

def c10Task : Task :=
  { id := 1, status := "pending", prompt := "old", priority := some "low" }

def c10Tasks : List Task := [c10Task]

/-! ## Helper lemmas -/

theorem strStartsWith_empty_left {p : String} (hp : p ≠ "") :
    strStartsWith "" p = false := by
  obtain ⟨l⟩ := p
  cases l with
  | nil => exact absurd rfl hp
  | cons a as => rfl

theorem pyOrStr_some (s : String) : pyOrStr (some s) "" = s := by
  unfold pyOrStr
  by_cases h : s = "" <;> simp [h]

theorem updateFirst_length (p : Task → Bool) (f : Task → Task) (l : List Task) :
    (updateFirst p f l).length = l.length := by
  induction l with
  | nil => rfl
  | cons t ts ih =>
    unfold updateFirst
    by_cases h : p t <;> simp [h, ih]

theorem updateFirst_of_none (p : Task → Bool) (f : Task → Task) (l : List Task)
    (h : ∀ t ∈ l, p t = false) :
    updateFirst p f l = l := by
  induction l with
  | nil => rfl
  | cons t ts ih =>
    have h0 : p t = false := h t (by simp)
    unfold updateFirst
    simp [h0, ih fun u hu => h u (by simp [hu])]

theorem updateFirst_eq_set (p : Task → Bool) (f : Task → Task) (l : List Task)
    (i : Nat) (t0 : Task) (hget : l[i]? = some t0)
    (hfirst : ∀ j, j < i → ∀ u, l[j]? = some u → p u = false)
    (hp : p t0 = true) :
    updateFirst p f l = l.set i (f t0) := by
  induction l generalizing i with
  | nil => simp at hget
  | cons t ts ih =>
    cases i with
    | zero =>
      simp only [List.getElem?_cons_zero, Option.some.injEq] at hget
      subst hget
      unfold updateFirst
      simp [hp]
    | succ j =>
      have h0 : p t = false := hfirst 0 (Nat.succ_pos j) t (by simp)
      have hget' : ts[j]? = some t0 := by simpa using hget
      have hfirst' : ∀ k, k < j → ∀ u, ts[k]? = some u → p u = false := by
        intro k hk u hu
        exact hfirst (k + 1) (Nat.succ_lt_succ hk) u (by simpa using hu)
      unfold updateFirst
      simp only [h0, Bool.false_eq_true, if_false, List.set]
      exact congrArg (t :: ·) (ih j hget' hfirst')

theorem updateFirst_getElem_of_not_p (p : Task → Bool) (f : Task → Task) (l : List Task)
    (i : Nat) (t0 : Task) (hget : l[i]? = some t0) (h : p t0 = false) :
    (updateFirst p f l)[i]? = some t0 := by
  induction l generalizing i with
  | nil => simp at hget
  | cons t ts ih =>
    by_cases hp : p t
    · have heq : updateFirst p f (t :: ts) = f t :: ts := by
        simp [updateFirst, hp]
      cases i with
      | zero =>
        simp only [List.getElem?_cons_zero, Option.some.injEq] at hget
        subst hget
        simp [hp] at h
      | succ j =>
        rw [heq]
        simpa using hget
    · have heq : updateFirst p f (t :: ts) = t :: updateFirst p f ts := by
        simp [updateFirst, hp]
      cases i with
      | zero =>
        rw [heq]
        simpa using hget
      | succ j =>
        rw [heq]
        have hget' : ts[j]? = some t0 := by simpa using hget
        simpa using ih j hget'

theorem keyLt_true_le {a b : Nat × Nat} (h : keyLt a b = true) : keyLe a b := by
  unfold keyLt at h
  unfold keyLe
  simp only [Bool.or_eq_true, Bool.and_eq_true, decide_eq_true_eq, beq_iff_eq] at h
  omega

theorem keyLt_false_le {a b : Nat × Nat} (h : keyLt a b = false) : keyLe b a := by
  unfold keyLt at h
  unfold keyLe
  simp only [Bool.or_eq_false_iff, Bool.and_eq_false_iff,
    decide_eq_false_iff_not, beq_eq_false_iff_ne, ne_eq] at h
  omega

theorem keyLe_refl (a : Nat × Nat) : keyLe a a := by
  unfold keyLe
  omega

theorem keyLe_trans {a b c : Nat × Nat} (h1 : keyLe a b) (h2 : keyLe b c) :
    keyLe a c := by
  unfold keyLe at h1 h2 ⊢
  omega

theorem pickMin_spec (t : Task) (rest : List Task) :
    (pickMin t rest = t ∨ pickMin t rest ∈ rest) ∧
      keyLe (taskKey (pickMin t rest)) (taskKey t) ∧
      ∀ u ∈ rest, keyLe (taskKey (pickMin t rest)) (taskKey u) := by
  induction rest generalizing t with
  | nil =>
    refine ⟨Or.inl rfl, ?_, by simp⟩
    exact keyLe_refl _
  | cons v vs ih =>
    have hstep : pickMin t (v :: vs)
        = pickMin (if keyLt (taskKey v) (taskKey t) then v else t) vs := rfl
    by_cases hb : keyLt (taskKey v) (taskKey t) = true
    · have hstep' : pickMin t (v :: vs) = pickMin v vs := by rw [hstep, if_pos hb]
      obtain ⟨hmem, hle, hall⟩ := ih v
      refine ⟨?_, ?_, ?_⟩
      · rw [hstep']
        rcases hmem with h | h
        · exact Or.inr (by simp [h])
        · exact Or.inr (by simp [h])
      · rw [hstep']
        exact keyLe_trans hle (keyLt_true_le hb)
      · intro u hu
        rw [hstep']
        rcases List.mem_cons.mp hu with rfl | hu'
        · exact hle
        · exact hall u hu'
    · have hb' : keyLt (taskKey v) (taskKey t) = false := by
        simpa using hb
      have hstep' : pickMin t (v :: vs) = pickMin t vs := by rw [hstep, if_neg hb]
      obtain ⟨hmem, hle, hall⟩ := ih t
      refine ⟨?_, ?_, ?_⟩
      · rw [hstep']
        rcases hmem with h | h
        · exact Or.inl h
        · exact Or.inr (by simp [h])
      · rw [hstep']
        exact hle
      · intro u hu
        rw [hstep']
        rcases List.mem_cons.mp hu with rfl | hu'
        · exact keyLe_trans hle (keyLt_false_le hb')
        · exact hall u hu'

theorem find_id_first (store : List Task) (tid : Nat) (i : Nat) (t0 : Task)
    (hget : store[i]? = some t0) (hid : t0.id = tid)
    (hbefore : ∀ j, j < i → ∀ u, store[j]? = some u → u.id ≠ tid) :
    store.find? (fun t => t.id == tid) = some t0 := by
  induction store generalizing i with
  | nil => simp at hget
  | cons t ts ih =>
    cases i with
    | zero =>
      simp only [List.getElem?_cons_zero, Option.some.injEq] at hget
      subst hget
      simp [List.find?, hid]
    | succ j =>
      have h0 : t.id ≠ tid := hbefore 0 (Nat.succ_pos j) t (by simp)
      have hget' : ts[j]? = some t0 := by simpa using hget
      have hbefore' : ∀ k, k < j → ∀ u, ts[k]? = some u → u.id ≠ tid := by
        intro k hk u hu
        exact hbefore (k + 1) (Nat.succ_lt_succ hk) u (by simpa using hu)
      have hfalse : (t.id == tid) = false := by simpa using h0
      simp only [List.find?, hfalse]
      exact ih j hget' hbefore'

theorem foldl_max_le_acc (l : List Task) (a : Nat) :
    a ≤ l.foldl (fun m t => max m t.id) a := by
  induction l generalizing a with
  | nil => simp
  | cons t ts ih =>
    simp only [List.foldl]
    exact le_trans (le_max_left a t.id) (ih (max a t.id))

theorem foldl_max_mem_le (l : List Task) (a : Nat) :
    ∀ t ∈ l, t.id ≤ l.foldl (fun m t => max m t.id) a := by
  induction l generalizing a with
  | nil => simp
  | cons u ts ih =>
    intro t ht
    rcases List.mem_cons.mp ht with rfl | ht'
    · exact le_trans (le_max_right a t.id) (foldl_max_le_acc ts (max a t.id))
    · exact ih (max a u.id) t ht'

theorem foldl_max_eq_acc_or_mem (l : List Task) (a : Nat) :
    l.foldl (fun m t => max m t.id) a = a ∨
      ∃ t ∈ l, l.foldl (fun m t => max m t.id) a = t.id := by
  induction l generalizing a with
  | nil => simp
  | cons u ts ih =>
    simp only [List.foldl]
    rcases ih (max a u.id) with h | ⟨t, ht, heq⟩
    · rcases Nat.le_total u.id a with hle | hle
      · left
        rw [h]
        exact Nat.max_eq_left hle
      · right
        refine ⟨u, by simp, ?_⟩
        rw [h]
        exact Nat.max_eq_right hle
    · right
      exact ⟨t, by simp [ht], heq⟩

/-! ## Claim theorems -/

/-- Claim C1: `pick_next_task` returns `none` exactly when no task in the
list is pending; otherwise it returns a pending task of the list that is
minimal under the lexicographic key `(priority-rank, id)`, where `high` ranks
0, `medium` 1, `low` 2, and an absent or unrecognised priority ranks as
`medium` (1); ties on rank are decided by ascending id (the key's second
component). -/
theorem pick_next_task_correct (tasks : List Task) :
    (pick_next_task tasks = none ↔ ∀ t ∈ tasks, t.status ≠ "pending") ∧
    (∀ t, pick_next_task tasks = some t →
        t ∈ tasks ∧ t.status = "pending" ∧
        ∀ u ∈ tasks, u.status = "pending" → keyLe (taskKey t) (taskKey u)) ∧
    (∀ t : Task, t.priority = none → priorityRank t = 1) ∧
    (∀ t : Task, ∀ p, t.priority = some p →
        p ≠ "high" → p ≠ "medium" → p ≠ "low" → priorityRank t = 1) ∧
    (∀ t : Task, t.priority = some "high" → priorityRank t = 0) ∧
    (∀ t : Task, t.priority = some "medium" → priorityRank t = 1) ∧
    (∀ t : Task, t.priority = some "low" → priorityRank t = 2) := by
  refine ⟨?_, ?_, ?_, ?_, ?_, ?_, ?_⟩
  · cases hf : tasks.filter (fun t => t.status == "pending") with
    | nil =>
      simp only [pick_next_task, hf]
      constructor
      · intro _ t ht hstat
        have hmem : t ∈ tasks.filter (fun t => t.status == "pending") := by
          rw [List.mem_filter]
          exact ⟨ht, by simpa using hstat⟩
        rw [hf] at hmem
        simp at hmem
      · intro _
        trivial
    | cons t0 rest =>
      simp only [pick_next_task, hf]
      constructor
      · intro h
        simp at h
      · intro hall
        have hmem : t0 ∈ tasks.filter (fun t => t.status == "pending") := by
          rw [hf]
          simp
        rw [List.mem_filter] at hmem
        exact absurd (by simpa using hmem.2) (hall t0 hmem.1)
  · intro t hpick
    cases hf : tasks.filter (fun t => t.status == "pending") with
    | nil => simp [pick_next_task, hf] at hpick
    | cons t0 rest =>
      simp only [pick_next_task, hf, Option.some.injEq] at hpick
      subst hpick
      obtain ⟨hmem, hle0, hall⟩ := pickMin_spec t0 rest
      have htcons : pickMin t0 rest ∈ t0 :: rest := by
        rcases hmem with h | h
        · simp [h]
        · simp [h]
      have htfilter : pickMin t0 rest ∈ tasks.filter (fun t => t.status == "pending") := by
        rw [hf]
        exact htcons
      rw [List.mem_filter] at htfilter
      refine ⟨htfilter.1, by simpa using htfilter.2, ?_⟩
      intro u hu hust
      have hufilter : u ∈ tasks.filter (fun t => t.status == "pending") := by
        rw [List.mem_filter]
        exact ⟨hu, by simpa using hust⟩
      rw [hf] at hufilter
      rcases List.mem_cons.mp hufilter with rfl | hurest
      · exact hle0
      · exact hall u hurest
  · intro t h
    simp [priorityRank, PRIORITY_ORDER, h]
  · intro t p hp h1 h2 h3
    simp [priorityRank, PRIORITY_ORDER, hp, h1, h2, h3]
  · intro t h
    simp [priorityRank, PRIORITY_ORDER, h]
  · intro t h
    simp [priorityRank, PRIORITY_ORDER, h]
  · intro t h
    simp [priorityRank, PRIORITY_ORDER, h]

/-- Witness for the C1 theorem: on a concrete store the picked task is the
pending task with no priority (rank `medium`), beating a lower-priority task,
and it is key-minimal among the pending tasks. -/
theorem pick_next_task_correct_witness :
    c1TaskA ∈ c1Tasks ∧ c1TaskA.status = "pending" ∧
      ∀ u ∈ c1Tasks, u.status = "pending" → keyLe (taskKey c1TaskA) (taskKey u) :=
  (pick_next_task_correct c1Tasks).2.1 c1TaskA (by decide)

/-- Claim C3 counterexample: on a malformed store document `load_tasks`
propagates the parse failure (`json.loads` raises `json.JSONDecodeError`
uncaught) instead of returning the empty task list, refuting "load never
fails on malformation". -/
theorem load_tasks_malformed_cex :
    load_tasks .malformed = .error "JSONDecodeError" ∧
      ∀ ts : List Task, load_tasks .malformed ≠ .ok ts := by
  refine ⟨rfl, ?_⟩
  intro ts h
  simp [load_tasks] at h

/-- Claim C3 (amended): `load_tasks` returns the empty task list when the
store document is absent (it never fails on absence) and the parsed list on a
well-formed document, but on a malformed document it fails with a parse
error rather than returning the empty list. -/
theorem load_tasks_spec :
    load_tasks .absent = .ok ([] : List Task) ∧
      (∀ ts : List Task, load_tasks (.wellFormed ts) = .ok ts) ∧
      load_tasks .malformed = .error "JSONDecodeError" :=
  ⟨rfl, fun _ => rfl, rfl⟩

/-- Claim C5: decomposition detection returns true iff at least one task in
the store has `parent` equal to the given id and status `pending`; a
parent-linked task in any other status does not trigger it. -/
theorem detect_decomposition_iff (tasks : List Task) (tid : Nat) :
    detect_decomposition tasks tid = true ↔
      ∃ t ∈ tasks, t.parent = some tid ∧ t.status = "pending" := by
  unfold detect_decomposition
  simp [List.any_eq_true]

/-- Claim C4: for a non-empty date string `today` (as
`date.today().isoformat()` always produces), `tasks_completed_today` counts
exactly the tasks with status `done` whose `completed_at` is present and
starts with `today` — a different date prefix or an absent `completed_at` is
not counted — and the dispatch loop takes the long-backoff branch exactly
when this count has reached the daily limit. -/
theorem tasks_completed_today_spec (tasks : List Task) (today : String)
    (limit : Nat) (h : today ≠ "") :
    tasks_completed_today tasks today =
      (tasks.filter (fun t => t.status == "done" &&
        (match t.completed_at with
         | none => false
         | some s => strStartsWith s today))).length ∧
    (loop_step tasks today limit = .backoff ↔
      limit ≤ tasks_completed_today tasks today) := by
  constructor
  · rw [tasks_completed_today, List.countP_eq_length_filter]
    congr 1
    apply List.filter_congr
    intro t _
    cases hc : t.completed_at with
    | none => simp [pyOrStr, strStartsWith_empty_left h]
    | some s => simp [pyOrStr_some]
  · unfold loop_step
    by_cases hb : limit ≤ tasks_completed_today tasks today
    · simp [hb]
    · rw [if_neg hb]
      cases hpick : pick_next_task tasks <;> simp [hb]

/-- Witness for the C4 theorem on a concrete store: exactly one of the two
`done` tasks completed today, and with a daily limit of 1 the loop backs
off. -/
theorem tasks_completed_today_spec_witness :
    (tasks_completed_today c4Tasks "2026-02-27" =
      (c4Tasks.filter (fun t => t.status == "done" &&
        (match t.completed_at with
         | none => false
         | some s => strStartsWith s "2026-02-27"))).length ∧
    (loop_step c4Tasks "2026-02-27" 1 = .backoff ↔
      1 ≤ tasks_completed_today c4Tasks "2026-02-27")) :=
  tasks_completed_today_spec c4Tasks "2026-02-27" 1 (by decide)

/-- Claim C8: for a non-empty date string `today` and a task whose
`completed_at`, when present, is a real timestamp (not the empty string),
membership in the daily report's failed partition holds exactly for status
`failed` with `completed_at` starting with `today`, falling back to
`created_at` for the prefix comparison when `completed_at` is absent; and
membership in the done partition never uses that fallback — it requires a
present `completed_at` starting with `today`. -/
theorem digest_failed_today_spec (tasks : List Task) (today : String)
    (t : Task) (h1 : today ≠ "") (h2 : t.completed_at ≠ some "") :
    (t ∈ digestFailed tasks today ↔
      t ∈ tasks ∧ t.status = "failed" ∧
        ((∃ s, t.completed_at = some s ∧ strStartsWith s today = true) ∨
         (t.completed_at = none ∧
          ∃ c, t.created_at = some c ∧ strStartsWith c today = true))) ∧
    (t ∈ digestDone tasks today ↔
      t ∈ tasks ∧ t.status = "done" ∧
        ∃ s, t.completed_at = some s ∧ strStartsWith s today = true) := by
  have hKeyF : strStartsWith (pyOrStr t.completed_at (pyOrStr t.created_at "")) today = true ↔
      ((∃ s, t.completed_at = some s ∧ strStartsWith s today = true) ∨
       (t.completed_at = none ∧
        ∃ c, t.created_at = some c ∧ strStartsWith c today = true)) := by
    cases hc : t.completed_at with
    | none =>
      cases hcr : t.created_at with
      | none => simp [pyOrStr, strStartsWith_empty_left h1]
      | some c =>
        by_cases hce : c = ""
        · subst hce
          simp [pyOrStr, strStartsWith_empty_left h1]
        · simp [pyOrStr, hce]
    | some s =>
      have hs : ¬ s = "" := fun he => h2 (by rw [hc, he])
      simp [pyOrStr, hs]
  have hKeyD : strStartsWith (pyOrStr t.completed_at "") today = true ↔
      ∃ s, t.completed_at = some s ∧ strStartsWith s today = true := by
    cases hc : t.completed_at with
    | none => simp [pyOrStr, strStartsWith_empty_left h1]
    | some s =>
      by_cases hse : s = ""
      · subst hse
        simp [pyOrStr, strStartsWith_empty_left h1]
      · simp [pyOrStr, hse]
  constructor
  · rw [digestFailed, List.mem_filter]
    constructor
    · rintro ⟨hmem, hp⟩
      simp only [Bool.and_eq_true, beq_iff_eq] at hp
      exact ⟨hmem, hp.1, hKeyF.mp hp.2⟩
    · rintro ⟨hmem, hstat, hrest⟩
      refine ⟨hmem, ?_⟩
      simp only [Bool.and_eq_true, beq_iff_eq]
      exact ⟨hstat, hKeyF.mpr hrest⟩
  · rw [digestDone, List.mem_filter]
    constructor
    · rintro ⟨hmem, hp⟩
      simp only [Bool.and_eq_true, beq_iff_eq] at hp
      exact ⟨hmem, hp.1, hKeyD.mp hp.2⟩
    · rintro ⟨hmem, hstat, hrest⟩
      refine ⟨hmem, ?_⟩
      simp only [Bool.and_eq_true, beq_iff_eq]
      exact ⟨hstat, hKeyD.mpr hrest⟩

/-- Witness for the C8 theorem at a concrete failed task that was never
completed: it appears in the failed partition through the `created_at`
fallback. -/
theorem digest_failed_today_spec_witness :
    (c8Task ∈ digestFailed c8Tasks "2026-02-27" ↔
      c8Task ∈ c8Tasks ∧ c8Task.status = "failed" ∧
        ((∃ s, c8Task.completed_at = some s ∧ strStartsWith s "2026-02-27" = true) ∨
         (c8Task.completed_at = none ∧
          ∃ c, c8Task.created_at = some c ∧ strStartsWith c "2026-02-27" = true))) ∧
    (c8Task ∈ digestDone c8Tasks "2026-02-27" ↔
      c8Task ∈ c8Tasks ∧ c8Task.status = "done" ∧
        ∃ s, c8Task.completed_at = some s ∧ strStartsWith s "2026-02-27" = true) :=
  digest_failed_today_spec c8Tasks "2026-02-27" c8Task (by decide) (by decide)

/-- Claim C6: when the store's task with the given id (ids are unique in the
store) has status `failed`, `rejected` or `done`, retry resets it to
`pending` and clears `completed_at`, `summary` and `plan`, leaving every
other task in place; for a task in any other status the store is returned
unchanged. -/
theorem retry_task_spec (tasks : List Task) (tid : Nat) (i : Nat) (t0 : Task)
    (hget : tasks[i]? = some t0) (hid : t0.id = tid)
    (huniq : ∀ j, j ≠ i → ∀ u, tasks[j]? = some u → u.id ≠ tid) :
    ((t0.status = "failed" ∨ t0.status = "rejected" ∨ t0.status = "done") →
      retry_task tasks tid = tasks.set i (retryClear t0) ∧
        (retryClear t0).status = "pending" ∧
        (retryClear t0).completed_at = none ∧
        (retryClear t0).summary = none ∧
        (retryClear t0).plan = none) ∧
    ((t0.status ≠ "failed" ∧ t0.status ≠ "rejected" ∧ t0.status ≠ "done") →
      retry_task tasks tid = tasks) := by
  constructor
  · intro hst
    refine ⟨?_, rfl, rfl, rfl, rfl⟩
    unfold retry_task retryClear
    apply updateFirst_eq_set _ _ tasks i t0 hget
    · intro j hj u hu
      have hne := huniq j (Nat.ne_of_lt hj) u hu
      have e : (u.id == tid) = false := by simpa using hne
      simp [e]
    · have e : (t0.id == tid) = true := by simpa using hid
      rcases hst with h | h | h <;> simp [e, h]
  · rintro ⟨h1, h2, h3⟩
    unfold retry_task
    apply updateFirst_of_none
    intro u hu
    rcases List.mem_iff_getElem?.mp hu with ⟨j, hj⟩
    by_cases hji : j = i
    · subst hji
      rw [hget] at hj
      injection hj with hj
      subst hj
      simp [h1, h2, h3]
    · have hne := huniq j hji u hj
      have e : (u.id == tid) = false := by simpa using hne
      simp [e]

/-- Witness for the C6 theorem: retrying a concrete failed task resets it to
a cleared pending task. -/
theorem retry_task_spec_witness :
    retry_task c6Tasks 1 = c6Tasks.set 0 (retryClear c6Task) ∧
      (retryClear c6Task).status = "pending" ∧
      (retryClear c6Task).completed_at = none ∧
      (retryClear c6Task).summary = none ∧
      (retryClear c6Task).plan = none :=
  (retry_task_spec c6Tasks 1 0 c6Task rfl rfl
      (by
        intro j hj u hu
        cases j with
        | zero => exact absurd rfl hj
        | succ k => simp [c6Tasks] at hu)).1
    (Or.inl rfl)

/-- Claim C7: every status-changing Control Surface operation (approve,
reject, cancel, retry, approve-push, reject-push), applied over a store
position holding a task that is not in the operation's required source
state, leaves that task exactly as it was and preserves the store's length;
each operation is a total function, so it completes normally rather than
raising. -/
theorem control_op_noop_spec (op : ControlOp) (tasks : List Task) (tid : Nat)
    (i : Nat) (t0 : Task) (hget : tasks[i]? = some t0)
    (hst : t0.status ∉ requiredStates op) :
    (applyOp op tasks tid).length = tasks.length ∧
      (applyOp op tasks tid)[i]? = some t0 := by
  cases op with
  | approve =>
    refine ⟨updateFirst_length _ _ _, ?_⟩
    apply updateFirst_getElem_of_not_p _ _ _ i t0 hget
    simp only [requiredStates, List.mem_singleton] at hst
    have e : (t0.status == "plan_review") = false := by simpa using hst
    simp [e]
  | reject fb =>
    refine ⟨updateFirst_length _ _ _, ?_⟩
    apply updateFirst_getElem_of_not_p _ _ _ i t0 hget
    simp only [requiredStates, List.mem_singleton] at hst
    have e : (t0.status == "plan_review") = false := by simpa using hst
    simp [e]
  | cancel =>
    refine ⟨updateFirst_length _ _ _, ?_⟩
    apply updateFirst_getElem_of_not_p _ _ _ i t0 hget
    simp only [requiredStates, List.mem_cons, List.mem_singleton, not_or] at hst
    obtain ⟨n1, n2, n3⟩ := hst
    have e1 : (t0.status == "in_progress") = false := by simpa using n1
    have e2 : (t0.status == "plan_review") = false := by simpa using n2
    have e3 : (t0.status == "approved") = false := by simpa using n3
    simp [e1, e2, e3]
  | retry =>
    refine ⟨updateFirst_length _ _ _, ?_⟩
    apply updateFirst_getElem_of_not_p _ _ _ i t0 hget
    simp only [requiredStates, List.mem_cons, List.mem_singleton, not_or] at hst
    obtain ⟨n1, n2, n3⟩ := hst
    have e1 : (t0.status == "failed") = false := by simpa using n1
    have e2 : (t0.status == "rejected") = false := by simpa using n2
    have e3 : (t0.status == "done") = false := by simpa using n3
    simp [e1, e2, e3]
  | approvePush =>
    refine ⟨updateFirst_length _ _ _, ?_⟩
    apply updateFirst_getElem_of_not_p _ _ _ i t0 hget
    simp only [requiredStates, List.mem_singleton] at hst
    have e : (t0.status == "push_review") = false := by simpa using hst
    simp [e]
  | rejectPush =>
    refine ⟨updateFirst_length _ _ _, ?_⟩
    apply updateFirst_getElem_of_not_p _ _ _ i t0 hget
    simp only [requiredStates, List.mem_singleton] at hst
    have e : (t0.status == "push_review") = false := by simpa using hst
    simp [e]

/-- Witness for the C7 theorem: approving a task that is merely `pending`
(not `plan_review`) leaves it untouched. -/
theorem control_op_noop_spec_witness :
    (applyOp .approve c7Tasks 1).length = c7Tasks.length ∧
      (applyOp .approve c7Tasks 1)[0]? =
        some { id := 1, status := "pending", prompt := "a" } :=
  control_op_noop_spec .approve c7Tasks 1 0
    { id := 1, status := "pending", prompt := "a" } rfl (by decide)

/-- Claim C9: adding a task whose prompt strips to the empty string leaves
the store unchanged; for any other prompt the new task is appended with the
stripped prompt, status `pending`, and an id that exceeds every existing id,
equals 1 on an empty store, and on a non-empty store is one more than some
existing id (together: `max(existing ids) + 1`). -/
theorem add_task_spec (tasks : List Task) (promptRaw priority now : String) :
    (pyStrip promptRaw = "" → add_task tasks promptRaw priority now = tasks) ∧
    (pyStrip promptRaw ≠ "" →
      add_task tasks promptRaw priority now =
        tasks ++ [{ id := next_id tasks, status := "pending",
                    prompt := pyStrip promptRaw, priority := some priority,
                    parent := none, plan := none, created_at := some now,
                    completed_at := none, summary := none }] ∧
      (∀ t ∈ tasks, t.id < next_id tasks) ∧
      (tasks = [] → next_id tasks = 1) ∧
      (tasks ≠ [] → ∃ t ∈ tasks, next_id tasks = t.id + 1)) := by
  constructor
  · intro h
    simp [add_task, h]
  · intro h
    refine ⟨by simp [add_task, h], ?_, ?_, ?_⟩
    · intro t ht
      have hle := foldl_max_mem_le tasks 0 t ht
      unfold next_id
      omega
    · intro h0
      subst h0
      rfl
    · intro hne
      rcases foldl_max_eq_acc_or_mem tasks 0 with hz | ⟨t, ht, heq⟩
      · cases tasks with
        | nil => exact absurd rfl hne
        | cons u us =>
          refine ⟨u, by simp, ?_⟩
          have hle := foldl_max_mem_le (u :: us) 0 u (by simp)
          unfold next_id
          omega
      · refine ⟨t, ht, ?_⟩
        unfold next_id
        omega

/-- Witness for the C9 theorem: adding prompt " hi " to the empty store
creates task 1 with the stripped prompt. -/
theorem add_task_spec_witness :
    add_task [] " hi " "medium" "2026-02-27T09:00:00" =
      [] ++ [{ id := next_id [], status := "pending",
               prompt := pyStrip " hi ", priority := some "medium",
               parent := none, plan := none,
               created_at := some "2026-02-27T09:00:00",
               completed_at := none, summary := none }] ∧
      (∀ t ∈ ([] : List Task), t.id < next_id []) ∧
      (([] : List Task) = [] → next_id [] = 1) ∧
      (([] : List Task) ≠ [] → ∃ t ∈ ([] : List Task), next_id [] = t.id + 1) :=
  (add_task_spec [] " hi " "medium" "2026-02-27T09:00:00").2 (by decide)

/-- Claim C10: editing a task (ids unique in the store) whose status is
`pending`, `failed` or `rejected` always overwrites its priority with the
submitted value, overwrites its prompt only when the stripped submission is
non-empty (an empty submission keeps the old prompt), and changes nothing
else: the task's remaining fields and every other task are untouched. -/
theorem edit_task_spec (tasks : List Task) (tid : Nat)
    (promptRaw priority : String) (i : Nat) (t0 : Task)
    (hget : tasks[i]? = some t0) (hid : t0.id = tid)
    (huniq : ∀ j, j ≠ i → ∀ u, tasks[j]? = some u → u.id ≠ tid)
    (hst : t0.status = "pending" ∨ t0.status = "failed" ∨ t0.status = "rejected") :
    edit_task tasks tid promptRaw priority =
      tasks.set i { t0 with
        prompt := if pyStrip promptRaw = "" then t0.prompt else pyStrip promptRaw,
        priority := some priority } := by
  have hfirst : ∀ j, j < i → ∀ u, tasks[j]? = some u →
      (u.id == tid &&
        (u.status == "pending" || u.status == "failed" || u.status == "rejected")) = false := by
    intro j hj u hu
    have hne := huniq j (Nat.ne_of_lt hj) u hu
    have e : (u.id == tid) = false := by simpa using hne
    simp [e]
  have hp : (t0.id == tid &&
      (t0.status == "pending" || t0.status == "failed" || t0.status == "rejected")) = true := by
    have e : (t0.id == tid) = true := by simpa using hid
    rcases hst with h | h | h <;> simp [e, h]
  unfold edit_task
  rw [updateFirst_eq_set _ _ tasks i t0 hget hfirst hp]
  by_cases hpr : pyStrip promptRaw = "" <;> simp [hpr]

/-- Witness for the C10 theorem: editing a concrete pending task with an
empty prompt submission keeps the old prompt but still replaces the
priority. -/
theorem edit_task_spec_witness :
    edit_task c10Tasks 1 "" "high" =
      c10Tasks.set 0 { c10Task with
        prompt := if pyStrip "" = "" then c10Task.prompt else pyStrip "",
        priority := some "high" } :=
  edit_task_spec c10Tasks 1 "" "high" 0 c10Task rfl rfl
    (by
      intro j hj u hu
      cases j with
      | zero => exact absurd rfl hj
      | succ k => simp [c10Tasks] at hu)
    (Or.inl rfl)

/-- Claim C2 counterexample: with a single task sitting in `plan_review` and
an approval that never arrives before the deadline, the dispatch cycle ends
with the task's summary equal to "Plan rejected or timed out" — the gate's
"Plan approval timed out" summary is overwritten by the loop — refuting the
claimed final summary. -/
theorem approval_timeout_cex :
    ((dispatch_after_plan_review c2Store 1 2).1.find? (fun t => t.id == 1)).map
        Task.summary = some (some "Plan rejected or timed out") ∧
      ((dispatch_after_plan_review c2Store 1 2).1.find? (fun t => t.id == 1)).map
        Task.summary ≠ some (some "Plan approval timed out") := by
  decide

/-- Claim C2 (amended): if, after a successful plan phase stored the task in
`plan_review`, the task (ids unique in the store) never changes before the
approval deadline elapses, the approval gate returns Rejected (`False`) after
writing status `failed` with summary "Plan approval timed out", and the
dispatch cycle then overwrites that write, ending with the task's final
status `failed` and its final summary "Plan rejected or timed out". -/
theorem approval_timeout_spec (store : List Task) (tid : Nat) (fuel : Nat)
    (i : Nat) (t0 : Task) (hget : store[i]? = some t0) (hid : t0.id = tid)
    (huniq : ∀ j, j ≠ i → ∀ u, store[j]? = some u → u.id ≠ tid)
    (hst : t0.status = "plan_review") :
    wait_for_approval store tid fuel
        = (false, store.set i (timeoutFailUpdate t0)) ∧
      dispatch_after_plan_review store tid fuel
        = (store.set i (rejectedFailUpdate (timeoutFailUpdate t0)), false) ∧
      (timeoutFailUpdate t0).summary = some "Plan approval timed out" ∧
      (rejectedFailUpdate (timeoutFailUpdate t0)).status = "failed" ∧
      (rejectedFailUpdate (timeoutFailUpdate t0)).summary
        = some "Plan rejected or timed out" := by
  have hi : i < store.length := by
    rcases Nat.lt_or_ge i store.length with h | h
    · exact h
    · rw [List.getElem?_eq_none h] at hget
      exact Option.noConfusion hget
  have hfirst : ∀ j, j < i → ∀ u, store[j]? = some u → (u.id == tid) = false := by
    intro j hj u hu
    have hne := huniq j (Nat.ne_of_lt hj) u hu
    simpa using hne
  have hpt : (t0.id == tid) = true := by simpa using hid
  have hfind : store.find? (fun t => t.id == tid) = some t0 :=
    find_id_first store tid i t0 hget hid
      (fun j hj u hu => huniq j (Nat.ne_of_lt hj) u hu)
  have hgate : ∀ n, wait_for_approval store tid n
      = (false, store.set i (timeoutFailUpdate t0)) := by
    intro n
    induction n with
    | zero =>
      show (false, update_task store tid timeoutFailUpdate) = _
      rw [update_task, updateFirst_eq_set _ _ store i t0 hget hfirst hpt]
    | succ m ih =>
      show (match store.find? (fun t => t.id == tid) with
            | none => (false, store)
            | some t =>
              if t.status = "approved" then (true, store)
              else if t.status = "rejected" then (false, store)
              else wait_for_approval store tid m) = _
      rw [hfind]
      show (if t0.status = "approved" then (true, store)
            else if t0.status = "rejected" then (false, store)
            else wait_for_approval store tid m) = _
      rw [hst, if_neg (by decide : ¬ ("plan_review" : String) = "approved"),
        if_neg (by decide : ¬ ("plan_review" : String) = "rejected")]
      exact ih
  have hgatef := hgate fuel
  refine ⟨hgatef, ?_, rfl, rfl, rfl⟩
  have hstep : dispatch_after_plan_review store tid fuel
      = (update_task (store.set i (timeoutFailUpdate t0)) tid rejectedFailUpdate,
         false) := by
    unfold dispatch_after_plan_review
    rw [hgatef]
    rfl
  rw [hstep]
  have hS1get : (store.set i (timeoutFailUpdate t0))[i]? = some (timeoutFailUpdate t0) :=
    List.getElem?_set_eq_of_lt _ hi
  have hS1first : ∀ j, j < i → ∀ u,
      (store.set i (timeoutFailUpdate t0))[j]? = some u → (u.id == tid) = false := by
    intro j hj u hu
    rw [List.getElem?_set_ne (by omega)] at hu
    have hne := huniq j (by omega) u hu
    simpa using hne
  have hS1p : ((timeoutFailUpdate t0).id == tid) = true := by
    simpa [timeoutFailUpdate] using hid
  rw [update_task,
    updateFirst_eq_set _ _ _ i (timeoutFailUpdate t0) hS1get hS1first hS1p,
    List.set_set]

/-- Witness for the amended C2 theorem at a concrete one-task store with two
polls before the deadline. -/
theorem approval_timeout_spec_witness :
    wait_for_approval c2Store 1 2
        = (false, c2Store.set 0 (timeoutFailUpdate c2Task)) ∧
      dispatch_after_plan_review c2Store 1 2
        = (c2Store.set 0 (rejectedFailUpdate (timeoutFailUpdate c2Task)), false) ∧
      (timeoutFailUpdate c2Task).summary = some "Plan approval timed out" ∧
      (rejectedFailUpdate (timeoutFailUpdate c2Task)).status = "failed" ∧
      (rejectedFailUpdate (timeoutFailUpdate c2Task)).summary
        = some "Plan rejected or timed out" :=
  approval_timeout_spec c2Store 1 2 0 c2Task rfl rfl
    (by
      intro j hj u hu
      cases j with
      | zero => exact absurd rfl hj
      | succ k => simp [c2Store] at hu)
    rfl

end Agent
